import Mathlib

/-!
Shallow embedding of the Mongo-backed CRUD gateway in
`src-tauri/src/main.rs` (Tauri commands `db_find_items`, `db_add_item`,
`db_update_item`, `db_delete_item`).

Modelling choices:

* A Mongo `ObjectId` is 12 bytes, i.e. a number below `16 ^ 24`; its
  canonical textual form (`ObjectId::to_hex`) is the 24-character
  lowercase big-endian hex string, and `ObjectId::parse_str` hex-decodes
  any 24-character string of hex digits (upper or lower case), exactly as
  Rust's `hex::decode` does.
* A BSON document is an association list of field name / value pairs in
  insertion order; `Document::get`, `remove` and `insert` follow the
  `bson` crate (`insert` overwrites in place when the key exists and
  appends otherwise).  The BSON values that occur in this program are
  object ids, strings and 64-bit doubles; a double is carried by its
  IEEE-754 bit pattern, since the program never computes with prices,
  only stores and compares them.
* The Mongo store itself is external to the repository; its primitives
  (`find`, `insert_one`, `update_one` with `$set`, `delete_one`) are
  modelled from their documented semantics on a collection held as a
  list of documents.  Transport failures are outside the pure model:
  every claim below is about behaviour in their absence.
-/

/-- Value of one hex digit character: `0`-`9`, `a`-`f` and `A`-`F` decode,
everything else is rejected (mirrors `hex::decode` used by
`ObjectId::parse_str`). -/
def hexVal (c : Char) : Option Nat :=
  if 48 ≤ c.toNat ∧ c.toNat ≤ 57 then some (c.toNat - 48)
  else if 97 ≤ c.toNat ∧ c.toNat ≤ 102 then some (c.toNat - 87)
  else if 65 ≤ c.toNat ∧ c.toNat ≤ 70 then some (c.toNat - 55)
  else none

/-- Lowercase hex digit character for a value below 16 (mirrors
`hex::encode` used by `ObjectId::to_hex`). -/
def natToHexDigit (n : Nat) : Char :=
  if n < 10 then Char.ofNat (48 + n) else Char.ofNat (87 + n)

/-- Big-endian hex digit list of `n` padded to `k` digits. -/
def natToHexBE : Nat → Nat → List Char
  | 0, _ => []
  | k + 1, n => natToHexDigit (n / 16 ^ k) :: natToHexBE k (n % 16 ^ k)

/-- Left-to-right hex accumulator: `parseHexAux cs acc` folds the digits
of `cs` onto `acc`, failing on the first non-hex character. -/
def parseHexAux : List Char → Nat → Option Nat
  | [], acc => some acc
  | c :: cs, acc =>
    match hexVal c with
    | none => none
    | some v => parseHexAux cs (acc * 16 + v)

/-- A Mongo `ObjectId`: 12 bytes, read big-endian as a number below
`16 ^ 24`. -/
def ObjectId := Fin (16 ^ 24)

instance : DecidableEq ObjectId := instDecidableEqFin _

/-- Rust `ObjectId::to_hex`: the 24-character lowercase hex form. -/
def ObjectId.to_hex (oid : ObjectId) : String :=
  String.mk (natToHexBE 24 oid.val)

/-- Rust `ObjectId::parse_str`: succeeds exactly on 24-character hex
strings (`hex::decode` of the string must yield 12 bytes).  The bound
check in the success branch is redundant -- a 24-digit hex number is
below `16 ^ 24` -- but makes the `Fin` construction direct. -/
def ObjectId.parse_str (s : String) : Option ObjectId :=
  match parseHexAux s.data 0 with
  | none => none
  | some n =>
    if h : s.data.length = 24 ∧ n < 16 ^ 24 then some ⟨n, h.2⟩ else none

/-- IEEE-754 double carried by its 64-bit pattern; the program only
stores and compares prices, never computes with them. -/
structure FloatBits where
  bits : Nat
deriving DecidableEq, Repr

/-- The BSON values this program's documents carry. -/
inductive Bson where
  | objectId (oid : ObjectId)
  | string (s : String)
  | double (f : FloatBits)
deriving DecidableEq

/-- Rust `bson::Bson::as_object_id`. -/
def Bson.as_object_id : Bson → Option ObjectId
  | .objectId oid => some oid
  | _ => none

/-- A BSON document: field name / value pairs in insertion order. -/
abbrev Doc := List (String × Bson)

/-- Rust `Document::get`: first binding of the key, if any. -/
def Doc.get : Doc → String → Option Bson
  | [], _ => none
  | (k', v) :: rest, k => if k' = k then some v else Doc.get rest k

/-- Rust `Document::remove`: drop the key's binding. -/
def Doc.remove : Doc → String → Doc
  | [], _ => []
  | (k', v) :: rest, k =>
    if k' = k then Doc.remove rest k else (k', v) :: Doc.remove rest k

/-- Rust `Document::insert` (also Mongo `$set` on one field): overwrite
in place when the key exists, append otherwise. -/
def Doc.insert : Doc → String → Bson → Doc
  | [], k, v => [(k, v)]
  | (k', v') :: rest, k, v =>
    if k' = k then (k, v) :: rest else (k', v') :: Doc.insert rest k v

/-- Rust `Document::get_object_id`: the key must be present and hold an
`ObjectId`; absence and wrong type both fail. -/
def Doc.get_object_id (d : Doc) (k : String) : Option ObjectId :=
  match d.get k with
  | some (.objectId oid) => some oid
  | _ => none

/-- The `Item` struct: `id` is serde-renamed to `_id` and skipped when
`None`; `price` is an `f64`. -/
structure Item where
  id : Option String
  name : String
  description : String
  price : FloatBits
deriving DecidableEq, Repr

/-- Rust `bson::to_document(&item)`: fields in declaration order, the
`id` field renamed to `_id` and omitted when `None` (serde
`skip_serializing_if = "Option::is_none"`). -/
def itemToDocument (it : Item) : Doc :=
  (match it.id with
   | some s => [("_id", Bson.string s)]
   | none => []) ++
  [("name", Bson.string it.name),
   ("description", Bson.string it.description),
   ("price", Bson.double it.price)]

/-- Rust `bson::from_document::<Item>`: structural deserialization.
`_id` is an `Option<String>` (absent is fine, a present non-string
fails); `name`, `description` must be strings, `price` a double; unknown
fields are ignored by serde's derived deserializer. -/
def fromDocument (d : Doc) : Option Item :=
  match d.get "_id", d.get "name", d.get "description", d.get "price" with
  | none, some (.string n), some (.string ds), some (.double p) =>
    some ⟨none, n, ds, p⟩
  | some (.string i), some (.string n), some (.string ds), some (.double p) =>
    some ⟨some i, n, ds, p⟩
  | _, _, _, _ => none

/-- The spec's `encode_for_insert`: serialize the `Item`, then
unconditionally strip the identifier field (`doc.remove("_id")` in
`db_add_item`). -/
def encode_for_insert (it : Item) : Doc :=
  (itemToDocument it).remove "_id"

/-- The spec's `encode_for_update`: serialize the `Item`, then
unconditionally strip the identifier field (`doc.remove("_id")` in
`db_update_item`). -/
def encode_for_update (it : Item) : Doc :=
  (itemToDocument it).remove "_id"

/-- The spec's `decode`: the per-document body of the scan loop in
`db_find_items` -- extract the `_id` as an `ObjectId`, rewrite the
document to carry the hex string instead, then deserialize into an
`Item`; `none` is the `DecodeError` case. -/
def decodeDoc (d : Doc) : Option Item :=
  match d.get_object_id "_id" with
  | none => none
  | some oid =>
    fromDocument ((d.remove "_id").insert "_id" (Bson.string oid.to_hex))

/-- The scan loop of `db_find_items`, literally: walk the cursor's
documents, `continue` on a failed `get_object_id` and on a failed
deserialization, push decoded items in scan order. -/
def findItemsScan : List Doc → List Item
  | [] => []
  | d :: rest =>
    match d.get_object_id "_id" with
    | none => findItemsScan rest
    | some oid =>
      match fromDocument ((d.remove "_id").insert "_id"
          (Bson.string oid.to_hex)) with
      | none => findItemsScan rest
      | some item => item :: findItemsScan rest

/-- The spec's `resolve_database`: the `match client.default_database()`
block repeated at the top of all four commands.  `cfg` is the database
name embedded in the connection string, if any. -/
def resolve_database (cfg : Option String) : String :=
  match cfg with
  | some db => db
  | none => "heheheheh"

/-- Store primitives invoked by the gateway, recorded as a trace so that
"no store call is made" is a statement about the model. -/
inductive StoreCall where
  | find
  | insertOne (d : Doc)
  | updateOne (filterId : ObjectId) (setDoc : Doc)
  | deleteOne (filterId : ObjectId)
deriving DecidableEq

/-- The error shapes the four commands can return (`Err(String)` in
Rust).  `invalidId` is the `"Invalid ObjectId: .."` message,
`insertNoId` the `"Failed to get inserted ID"` message. -/
inductive GwError where
  | invalidId
  | insertNoId
deriving DecidableEq

/-- Mongo `$set`: apply each field of the set-document to the target
document in order. -/
def applySet (d : Doc) (s : Doc) : Doc :=
  s.foldl (fun acc kv => acc.insert kv.1 kv.2) d

/-- First document of the collection matching the filter
`doc! { "_id": oid }`. -/
def findFirstMatch (coll : List Doc) (oid : ObjectId) : Option Doc :=
  coll.find? fun d => decide (d.get "_id" = some (Bson.objectId oid))

/-- Result of Mongo `update_one`. -/
structure UpdateOneResult where
  matchedCount : Nat
  modifiedCount : Nat
  coll : List Doc


/-- Mongo `update_one` with filter `doc! { "_id": oid }` and update
`doc! { "$set": s }`: the first matching document has the set applied;
`modified_count` counts it only when the document actually changed. -/
def Store.updateOne : List Doc → ObjectId → Doc → UpdateOneResult
  | [], _, _ => ⟨0, 0, []⟩
  | d :: rest, oid, s =>
    if d.get "_id" = some (Bson.objectId oid) then
      let d2 := applySet d s
      ⟨1, if d2 = d then 0 else 1, d2 :: rest⟩
    else
      let r := Store.updateOne rest oid s
      ⟨r.matchedCount, r.modifiedCount, d :: r.coll⟩

/-- Result of Mongo `delete_one`. -/
structure DeleteOneResult where
  deletedCount : Nat
  coll : List Doc


/-- Mongo `delete_one` with filter `doc! { "_id": oid }`: remove the
first matching document, if any. -/
def Store.deleteOne : List Doc → ObjectId → DeleteOneResult
  | [], _ => ⟨0, []⟩
  | d :: rest, oid =>
    if d.get "_id" = some (Bson.objectId oid) then ⟨1, rest⟩
    else
      let r := Store.deleteOne rest oid
      ⟨r.deletedCount, d :: r.coll⟩

/-- Outcome of the `db_find_items` command: the database it resolved
and the items it returned. -/
structure FindOutcome where
  database : String
  items : List Item

/-- The `db_find_items` command on one collection: resolve the
database, scan every document, decode with per-document error
isolation.  (Transport errors, which abort the whole scan in the Rust
code, are outside the pure model.) -/
def db_find_items (cfg : Option String) (docs : List Doc) : FindOutcome :=
  { database := resolve_database cfg
    items := findItemsScan docs }

/-- Outcome of a mutating command: resolved database, the command's
`Result`, the collection afterwards, and the store calls issued. -/
structure AddOutcome where
  database : String
  result : Except GwError String
  coll : List Doc
  calls : List StoreCall

/-- The `db_add_item` command: serialize, strip `_id`, insert.  The
driver assigns the document id; `insertedId` is the id the store
reports in `InsertOneResult.inserted_id` (an `ObjectId` under normal
store behaviour -- the non-`ObjectId` case is the code's defensive
`"Failed to get inserted ID"` branch). -/
def db_add_item (cfg : Option String) (coll : List Doc) (item : Item)
    (insertedId : Bson) : AddOutcome :=
  let d := encode_for_insert item
  let stored := ("_id", insertedId) :: d
  { database := resolve_database cfg
    result :=
      match insertedId.as_object_id with
      | some oid => .ok oid.to_hex
      | none => .error .insertNoId
    coll := coll ++ [stored]
    calls := [.insertOne d] }

/-- Outcome of `db_update_item`. -/
structure UpdateOutcome where
  database : String
  result : Except GwError Bool
  coll : List Doc
  calls : List StoreCall

/-- The `db_update_item` command: parse the id (failing before any store
call on a bad shape), serialize and strip `_id`, issue the `$set`
update, and return `modified_count > 0`. -/
def db_update_item (cfg : Option String) (coll : List Doc) (id : String)
    (item : Item) : UpdateOutcome :=
  let db := resolve_database cfg
  match ObjectId.parse_str id with
  | none => { database := db, result := .error .invalidId, coll := coll, calls := [] }
  | some oid =>
    let s := encode_for_update item
    let r := Store.updateOne coll oid s
    { database := db
      result := .ok (decide (0 < r.modifiedCount))
      coll := r.coll
      calls := [.updateOne oid s] }

/-- Outcome of `db_delete_item`. -/
structure DeleteOutcome where
  database : String
  result : Except GwError Bool
  coll : List Doc
  calls : List StoreCall

/-- The `db_delete_item` command: parse the id (failing before any store
call on a bad shape), issue the single-document delete, and return
`deleted_count > 0`. -/
def db_delete_item (cfg : Option String) (coll : List Doc) (id : String) :
    DeleteOutcome :=
  let db := resolve_database cfg
  match ObjectId.parse_str id with
  | none => { database := db, result := .error .invalidId, coll := coll, calls := [] }
  | some oid =>
    let r := Store.deleteOne coll oid
    { database := db
      result := .ok (decide (0 < r.deletedCount))
      coll := r.coll
      calls := [.deleteOne oid] }

/-! Sample inputs used by the concrete witnesses below. -/

/-- A concrete object id. -/
def oidA : ObjectId := ⟨5, by norm_num⟩

/-- A concrete object id distinct from `oidA`. -/
def oidB : ObjectId := ⟨7, by norm_num⟩

/-- A well-formed stored document. -/
def sampleGoodDoc : Doc :=
  [("_id", Bson.objectId oidA), ("name", Bson.string "n"),
   ("description", Bson.string "d"), ("price", Bson.double ⟨2⟩)]

/-- A stored document with no usable identifier field. -/
def sampleBadDoc : Doc := [("name", Bson.string "x")]

/-- A concrete item without id. -/
def sampleItem : Item := ⟨none, "n", "d", ⟨2⟩⟩

/-- A concrete item with a caller-supplied id. -/
def sampleItemWithId : Item := ⟨some "000000000000000000000007", "m", "e", ⟨9⟩⟩

/-! Helper lemmas on the hex encoding. -/

theorem hexVal_natToHexDigit {d : Nat} (h : d < 16) :
    hexVal (natToHexDigit d) = some d := by
  interval_cases d <;> rfl

theorem hexVal_lt {c : Char} {v : Nat} (h : hexVal c = some v) : v < 16 := by
  unfold hexVal at h
  split at h
  · injection h with h2; omega
  · split at h
    · injection h with h2; omega
    · split at h
      · injection h with h2; omega
      · exact absurd h (by simp)

theorem length_natToHexBE (k n : Nat) : (natToHexBE k n).length = k := by
  induction k generalizing n with
  | zero => rfl
  | succ k ih => simp [natToHexBE, ih]

theorem parseHexAux_natToHexBE {k n : Nat} (hn : n < 16 ^ k) (acc : Nat) :
    parseHexAux (natToHexBE k n) acc = some (acc * 16 ^ k + n) := by
  induction k generalizing n acc with
  | zero =>
    interval_cases n
    simp [natToHexBE, parseHexAux]
  | succ k ih =>
    have hpos : 0 < 16 ^ k := Nat.pos_pow_of_pos k (by omega)
    have hdig : n / 16 ^ k < 16 := by
      rw [Nat.div_lt_iff_lt_mul hpos]
      calc n < 16 ^ (k + 1) := hn
        _ = 16 * 16 ^ k := by rw [pow_succ]; ring
    have hmod : n % 16 ^ k < 16 ^ k := Nat.mod_lt _ hpos
    rw [natToHexBE]
    simp only [parseHexAux, hexVal_natToHexDigit hdig]
    rw [ih hmod]
    congr 1
    have hdm : n / 16 ^ k * 16 ^ k + n % 16 ^ k = n := Nat.div_add_mod' n (16 ^ k)
    calc (acc * 16 + n / 16 ^ k) * 16 ^ k + n % 16 ^ k
        = acc * (16 ^ k * 16) + (n / 16 ^ k * 16 ^ k + n % 16 ^ k) := by ring
      _ = acc * 16 ^ (k + 1) + n := by rw [hdm, pow_succ]

theorem parseHexAux_bound {cs : List Char} {acc A n : Nat} (hA : acc < A)
    (h : parseHexAux cs acc = some n) : n < A * 16 ^ cs.length := by
  induction cs generalizing acc A with
  | nil =>
    simp [parseHexAux] at h
    subst h
    simpa using hA
  | cons c cs ih =>
    rw [parseHexAux] at h
    cases hc : hexVal c with
    | none => rw [hc] at h; exact absurd h (by simp)
    | some v =>
      rw [hc] at h
      have hv : v < 16 := hexVal_lt hc
      have hstep : acc * 16 + v < A * 16 := by
        have : acc + 1 ≤ A := hA
        calc acc * 16 + v < acc * 16 + 16 := by omega
          _ = (acc + 1) * 16 := by ring
          _ ≤ A * 16 := Nat.mul_le_mul_right 16 this
      have := ih hstep h
      calc n < A * 16 * 16 ^ cs.length := this
        _ = A * 16 ^ (c :: cs).length := by
          simp [List.length_cons, pow_succ]
          ring

theorem parseHexAux_all_hex {cs : List Char} {acc n : Nat}
    (h : parseHexAux cs acc = some n) :
    ∀ c ∈ cs, (hexVal c).isSome := by
  induction cs generalizing acc with
  | nil => intro c hc; exact absurd hc (List.not_mem_nil c)
  | cons c0 cs ih =>
    rw [parseHexAux] at h
    cases hc : hexVal c0 with
    | none => rw [hc] at h; exact absurd h (by simp)
    | some v =>
      rw [hc] at h
      intro c hmem
      rcases List.mem_cons.mp hmem with rfl | hmem
      · simp [hc]
      · exact ih h c hmem

/-- Core of the identifier round trip: parsing the canonical hex form
recovers the object id. -/
theorem parse_str_to_hex (oid : ObjectId) :
    ObjectId.parse_str oid.to_hex = some oid := by
  have hlt : oid.val < 16 ^ 24 := oid.isLt
  have hp : parseHexAux (ObjectId.to_hex oid).data 0 = some oid.val := by
    show parseHexAux (natToHexBE 24 oid.val) 0 = some oid.val
    rw [parseHexAux_natToHexBE hlt 0]
    norm_num
  unfold ObjectId.parse_str
  split
  · next hnone => rw [hp] at hnone; exact absurd hnone (by simp)
  · next n hsome =>
    rw [hp] at hsome
    injection hsome with hn
    subst hn
    rw [dif_pos ⟨length_natToHexBE 24 oid.val, hlt⟩]
    rfl

/-- Bad shape means `parse_str` rejects: anything that is not a
24-character string of hex digits parses to `none`. -/
theorem parse_str_eq_none {s : String}
    (h : ¬(s.data.length = 24 ∧ ∀ c ∈ s.data, (hexVal c).isSome)) :
    ObjectId.parse_str s = none := by
  unfold ObjectId.parse_str
  split
  · rfl
  · next n hp =>
    rw [dif_neg]
    intro hcond
    exact h ⟨hcond.1, parseHexAux_all_hex hp⟩

/-! Helper lemmas on the list scan. -/

theorem findItemsScan_eq_filterMap (docs : List Doc) :
    findItemsScan docs = docs.filterMap decodeDoc := by
  induction docs with
  | nil => rfl
  | cons d rest ih =>
    cases h : d.get_object_id "_id" with
    | none => simp [findItemsScan, decodeDoc, h, ih]
    | some oid =>
      cases h2 : fromDocument ((d.remove "_id").insert "_id"
          (Bson.string oid.to_hex)) with
      | none => simp [findItemsScan, decodeDoc, h, h2, ih]
      | some it => simp [findItemsScan, decodeDoc, h, h2, ih]

theorem filterMap_eq_filter_filterMap {α β : Type} (f : α → Option β)
    (l : List α) :
    l.filterMap f = (l.filter fun a => (f a).isSome).filterMap f := by
  induction l with
  | nil => rfl
  | cons a l ih => cases h : f a <;> simp [List.filter_cons, h, ih]

theorem length_filterMap_eq_length_filter {α β : Type} (f : α → Option β)
    (l : List α) :
    (l.filterMap f).length = (l.filter fun a => (f a).isSome).length := by
  induction l with
  | nil => rfl
  | cons a l ih => cases h : f a <;> simp [List.filter_cons, h, ih]

/-! Helper lemmas on documents. -/

theorem Doc.get_remove_self (d : Doc) (k : String) :
    (d.remove k).get k = none := by
  induction d with
  | nil => rfl
  | cons kv rest ih =>
    obtain ⟨k', v⟩ := kv
    by_cases h : k' = k <;> simp [Doc.remove, Doc.get, h, ih]

theorem Doc.get_cons_none {k' : String} {v : Bson} {rest : Doc} {k : String}
    (h : Doc.get ((k', v) :: rest) k = none) :
    k' ≠ k ∧ Doc.get rest k = none := by
  by_cases hk : k' = k
  · simp [Doc.get, hk] at h
  · simp [Doc.get, hk] at h
    exact ⟨hk, h⟩

theorem Doc.get_insert_ne {k' k : String} (hne : k' ≠ k) (d : Doc) (v : Bson) :
    Doc.get (Doc.insert d k' v) k = Doc.get d k := by
  induction d with
  | nil => simp [Doc.insert, Doc.get, hne]
  | cons kv rest ih =>
    obtain ⟨k0, v0⟩ := kv
    by_cases h0 : k0 = k'
    · subst h0
      simp [Doc.insert, Doc.get, hne]
    · by_cases hk : k0 = k <;> simp [Doc.insert, Doc.get, h0, hk, ih, hne.symm]

theorem applySet_get_none :
    ∀ (s d : Doc) (k : String), Doc.get s k = none →
      Doc.get (applySet d s) k = Doc.get d k := by
  intro s
  induction s with
  | nil => intro d k _; rfl
  | cons kv rest ih =>
    intro d k h
    obtain ⟨k', v⟩ := kv
    obtain ⟨hne, hrest⟩ := Doc.get_cons_none h
    show Doc.get (applySet (Doc.insert d k' v) rest) k = Doc.get d k
    rw [ih (Doc.insert d k' v) k hrest, Doc.get_insert_ne hne]

/-! Helper lemmas on the store primitives. -/

theorem findFirstMatch_cons_pos {d : Doc} {rest : List Doc} {oid : ObjectId}
    (h : d.get "_id" = some (Bson.objectId oid)) :
    findFirstMatch (d :: rest) oid = some d := by
  unfold findFirstMatch
  rw [List.find?_cons_of_pos]
  simpa using h

theorem findFirstMatch_cons_neg {d : Doc} {rest : List Doc} {oid : ObjectId}
    (h : ¬d.get "_id" = some (Bson.objectId oid)) :
    findFirstMatch (d :: rest) oid = findFirstMatch rest oid := by
  unfold findFirstMatch
  rw [List.find?_cons_of_neg]
  simpa using h

theorem updateOne_modified_iff (coll : List Doc) (oid : ObjectId) (s : Doc) :
    0 < (Store.updateOne coll oid s).modifiedCount ↔
      ∃ d, findFirstMatch coll oid = some d ∧ applySet d s ≠ d := by
  induction coll with
  | nil => simp [Store.updateOne, findFirstMatch]
  | cons d rest ih =>
    by_cases h : d.get "_id" = some (Bson.objectId oid)
    · rw [findFirstMatch_cons_pos h]
      simp only [Store.updateOne, if_pos h]
      by_cases h2 : applySet d s = d <;> simp [h2]
    · rw [findFirstMatch_cons_neg h]
      simp only [Store.updateOne, if_neg h]
      exact ih

theorem updateOne_matched_zero {coll : List Doc} {oid : ObjectId} {s : Doc}
    (h : findFirstMatch coll oid = none) :
    (Store.updateOne coll oid s).matchedCount = 0 ∧
      (Store.updateOne coll oid s).modifiedCount = 0 := by
  induction coll with
  | nil => simp [Store.updateOne]
  | cons d rest ih =>
    by_cases hd : d.get "_id" = some (Bson.objectId oid)
    · rw [findFirstMatch_cons_pos hd] at h
      exact absurd h (by simp)
    · rw [findFirstMatch_cons_neg hd] at h
      simp only [Store.updateOne, if_neg hd]
      exact ih h

theorem deleteOne_deletedCount_le_one (coll : List Doc) (oid : ObjectId) :
    (Store.deleteOne coll oid).deletedCount ≤ 1 := by
  induction coll with
  | nil => simp [Store.deleteOne]
  | cons d rest ih =>
    by_cases h : d.get "_id" = some (Bson.objectId oid) <;>
      simp [Store.deleteOne, h, ih]

theorem deleteOne_deleted_iff (coll : List Doc) (oid : ObjectId) :
    0 < (Store.deleteOne coll oid).deletedCount ↔
      ∃ d ∈ coll, d.get "_id" = some (Bson.objectId oid) := by
  induction coll with
  | nil => simp [Store.deleteOne]
  | cons d rest ih =>
    by_cases h : d.get "_id" = some (Bson.objectId oid) <;>
      simp [Store.deleteOne, h, ih]

/-- Decoding the document stored by a successful insert recovers the
item's payload fields, with `id` set to the hex form of the assigned
object id. -/
theorem decode_insert_stored (item : Item) (oid : ObjectId) :
    decodeDoc (("_id", Bson.objectId oid) :: encode_for_insert item) =
      some ⟨some oid.to_hex, item.name, item.description, item.price⟩ := by
  obtain ⟨iid, nm, ds, pr⟩ := item
  cases iid <;> rfl

theorem Doc.get_insert_self (d : Doc) (k : String) (v : Bson) :
    (Doc.insert d k v).get k = some v := by
  induction d with
  | nil => simp [Doc.insert, Doc.get]
  | cons kv rest ih =>
    obtain ⟨k0, v0⟩ := kv
    by_cases h0 : k0 = k <;> simp [Doc.insert, Doc.get, h0, ih]

theorem Doc.get_remove_ne {kr k : String} (hne : kr ≠ k) (d : Doc) :
    (d.remove kr).get k = d.get k := by
  induction d with
  | nil => rfl
  | cons kv rest ih =>
    obtain ⟨k0, v0⟩ := kv
    by_cases h0 : k0 = kr
    · subst h0
      simp [Doc.remove, Doc.get, hne, ih]
    · by_cases hk : k0 = k <;> simp [Doc.remove, Doc.get, h0, hk, ih, hne.symm]

theorem fromDocument_char {d : Doc} {it : Item} (h : fromDocument d = some it) :
    d.get "_id" = it.id.map Bson.string ∧
      d.get "name" = some (Bson.string it.name) ∧
      d.get "description" = some (Bson.string it.description) ∧
      d.get "price" = some (Bson.double it.price) := by
  unfold fromDocument at h
  split at h
  · next h1 h2 h3 h4 =>
    injection h with h
    subst h
    exact ⟨h1, h2, h3, h4⟩
  · next h1 h2 h3 h4 =>
    injection h with h
    subst h
    exact ⟨h1, h2, h3, h4⟩
  · next =>
    exact absurd h (by simp)

/-! The claims. -/

/-- C1: a decode failure on a single native document is not fatal to
`db_find_items`: the scan (a total function of the document list) skips
exactly the undecodable documents, so with N decodable and M
undecodable documents it returns precisely the N decoded records. -/
theorem c1_list_skips_undecodable (cfg : Option String) (docs : List Doc)
    (N M : Nat)
    (hN : (docs.filter fun d => (decodeDoc d).isSome).length = N)
    (_hM : (docs.filter fun d => (decodeDoc d).isNone).length = M) :
    (db_find_items cfg docs).items.length = N ∧
      (db_find_items cfg docs).items =
        (docs.filter fun d => (decodeDoc d).isSome).filterMap decodeDoc := by
  have h1 : (db_find_items cfg docs).items = docs.filterMap decodeDoc :=
    findItemsScan_eq_filterMap docs
  constructor
  · rw [h1, length_filterMap_eq_length_filter, hN]
  · rw [h1]
    exact filterMap_eq_filter_filterMap decodeDoc docs

/-- Concrete check of C1 on one decodable and one undecodable document. -/
theorem c1_witness :
    (([sampleGoodDoc, sampleBadDoc].filter
        fun d => (decodeDoc d).isSome).length = 1 ∧
      ([sampleGoodDoc, sampleBadDoc].filter
        fun d => (decodeDoc d).isNone).length = 1) ∧
    ((db_find_items none [sampleGoodDoc, sampleBadDoc]).items.length = 1 ∧
      (db_find_items none [sampleGoodDoc, sampleBadDoc]).items =
        ([sampleGoodDoc, sampleBadDoc].filter
          fun d => (decodeDoc d).isSome).filterMap decodeDoc) :=
  ⟨⟨by decide, by decide⟩,
    c1_list_skips_undecodable none [sampleGoodDoc, sampleBadDoc] 1 1
      (by decide) (by decide)⟩

/-- C2: an id that is not exactly a 24-character hex string makes both
`db_update_item` and `db_delete_item` fail immediately with the
invalid-identifier error, leaving the collection unchanged and issuing
no store call. -/
theorem c2_invalid_id_no_store_call (cfg : Option String) (coll : List Doc)
    (id : String) (item : Item)
    (h : ¬(id.data.length = 24 ∧ ∀ c ∈ id.data, (hexVal c).isSome)) :
    db_update_item cfg coll id item =
        { database := resolve_database cfg, result := .error .invalidId,
          coll := coll, calls := [] } ∧
      db_delete_item cfg coll id =
        { database := resolve_database cfg, result := .error .invalidId,
          coll := coll, calls := [] } := by
  have hp := parse_str_eq_none h
  constructor <;> simp [db_update_item, db_delete_item, hp]

/-- Concrete check of C2 on the malformed id `"zz"`. -/
theorem c2_witness :
    (¬(("zz" : String).data.length = 24 ∧
        ∀ c ∈ ("zz" : String).data, (hexVal c).isSome)) ∧
    (db_update_item none [sampleGoodDoc] "zz" sampleItem =
        { database := resolve_database none, result := .error .invalidId,
          coll := [sampleGoodDoc], calls := [] } ∧
      db_delete_item none [sampleGoodDoc] "zz" =
        { database := resolve_database none, result := .error .invalidId,
          coll := [sampleGoodDoc], calls := [] }) :=
  ⟨by decide, c2_invalid_id_no_store_call none [sampleGoodDoc] "zz" sampleItem
    (by decide)⟩

/-- C3: for a valid id, `db_update_item` returns `Ok(true)` exactly when
the store's `modified_count` is positive, i.e. when the first matching
document actually changes under the `$set`; both "no match" and
"matched but nothing changed" yield `Ok(false)`, not an error. -/
theorem c3_update_true_iff_modified (cfg : Option String) (coll : List Doc)
    (id : String) (item : Item) (oid : ObjectId)
    (h : ObjectId.parse_str id = some oid) :
    ((db_update_item cfg coll id item).result = .ok true ↔
        ∃ d, findFirstMatch coll oid = some d ∧
          applySet d (encode_for_update item) ≠ d) ∧
      (findFirstMatch coll oid = none →
        (db_update_item cfg coll id item).result = .ok false) ∧
      (∀ d, findFirstMatch coll oid = some d →
        applySet d (encode_for_update item) = d →
        (db_update_item cfg coll id item).result = .ok false) := by
  have hres : (db_update_item cfg coll id item).result =
      .ok (decide (0 <
        (Store.updateOne coll oid (encode_for_update item)).modifiedCount)) := by
    simp [db_update_item, h]
  refine ⟨?_, ?_, ?_⟩
  · rw [hres]
    simp only [Except.ok.injEq, decide_eq_true_eq]
    exact updateOne_modified_iff coll oid (encode_for_update item)
  · intro hnone
    rw [hres, (updateOne_matched_zero hnone).2]
    rfl
  · intro d hd hfix
    have hnot : ¬0 <
        (Store.updateOne coll oid (encode_for_update item)).modifiedCount := by
      rw [updateOne_modified_iff]
      rintro ⟨d', hd', hne⟩
      rw [hd] at hd'
      injection hd' with hdd
      subst hdd
      exact hne hfix
    rw [hres, decide_eq_false hnot]

/-- Concrete check of C3: a valid id against one stored document. -/
theorem c3_witness :
    ObjectId.parse_str "000000000000000000000005" = some oidA ∧
    (((db_update_item none [sampleGoodDoc] "000000000000000000000005"
          sampleItemWithId).result = .ok true ↔
        ∃ d, findFirstMatch [sampleGoodDoc] oidA = some d ∧
          applySet d (encode_for_update sampleItemWithId) ≠ d) ∧
      (findFirstMatch [sampleGoodDoc] oidA = none →
        (db_update_item none [sampleGoodDoc] "000000000000000000000005"
          sampleItemWithId).result = .ok false) ∧
      (∀ d, findFirstMatch [sampleGoodDoc] oidA = some d →
        applySet d (encode_for_update sampleItemWithId) = d →
        (db_update_item none [sampleGoodDoc] "000000000000000000000005"
          sampleItemWithId).result = .ok false)) :=
  ⟨by decide,
    c3_update_true_iff_modified none [sampleGoodDoc]
      "000000000000000000000005" sampleItemWithId oidA (by decide)⟩

/-- C4: the documents handed to the store by create's insert and by
update's `$set` never contain an `_id` field -- any caller-supplied id
is stripped before the store call -- and a `$set` whose document lacks
`_id` leaves the stored identifier field untouched. -/
theorem c4_encoded_docs_have_no_id (cfg : Option String) (coll : List Doc)
    (item : Item) (b : Bson) (id : String) (oid : ObjectId) (d : Doc)
    (h : ObjectId.parse_str id = some oid) :
    (encode_for_insert item).get "_id" = none ∧
      (encode_for_update item).get "_id" = none ∧
      (db_add_item cfg coll item b).calls =
        [.insertOne (encode_for_insert item)] ∧
      (db_update_item cfg coll id item).calls =
        [.updateOne oid (encode_for_update item)] ∧
      (applySet d (encode_for_update item)).get "_id" = d.get "_id" := by
  refine ⟨Doc.get_remove_self _ _, Doc.get_remove_self _ _, rfl, ?_, ?_⟩
  · simp [db_update_item, h]
  · exact applySet_get_none (encode_for_update item) d "_id"
      (Doc.get_remove_self _ _)

/-- Concrete check of C4 with a caller-supplied id on the record. -/
theorem c4_witness :
    ObjectId.parse_str "000000000000000000000005" = some oidA ∧
    ((encode_for_insert sampleItemWithId).get "_id" = none ∧
      (encode_for_update sampleItemWithId).get "_id" = none ∧
      (db_add_item none [sampleGoodDoc] sampleItemWithId
          (Bson.objectId oidB)).calls =
        [.insertOne (encode_for_insert sampleItemWithId)] ∧
      (db_update_item none [sampleGoodDoc] "000000000000000000000005"
          sampleItemWithId).calls =
        [.updateOne oidA (encode_for_update sampleItemWithId)] ∧
      (applySet sampleGoodDoc
        (encode_for_update sampleItemWithId)).get "_id" =
          sampleGoodDoc.get "_id") :=
  ⟨by decide,
    c4_encoded_docs_have_no_id none [sampleGoodDoc] sampleItemWithId
      (Bson.objectId oidB) "000000000000000000000005" oidA sampleGoodDoc
      (by decide)⟩

/-- C5: for a valid id, `db_delete_item` returns `Ok(true)` exactly when
the single-document delete removed one document (`deleted_count = 1`,
which happens exactly when some stored document carries that id), and
`Ok(false)` -- not an error -- when nothing matched. -/
theorem c5_delete_true_iff_removed (cfg : Option String) (coll : List Doc)
    (id : String) (oid : ObjectId)
    (h : ObjectId.parse_str id = some oid) :
    ((db_delete_item cfg coll id).result = .ok true ↔
        (Store.deleteOne coll oid).deletedCount = 1) ∧
      ((Store.deleteOne coll oid).deletedCount = 1 ↔
        ∃ d ∈ coll, d.get "_id" = some (Bson.objectId oid)) ∧
      ((¬∃ d ∈ coll, d.get "_id" = some (Bson.objectId oid)) →
        (db_delete_item cfg coll id).result = .ok false) := by
  have hres : (db_delete_item cfg coll id).result =
      .ok (decide (0 < (Store.deleteOne coll oid).deletedCount)) := by
    simp [db_delete_item, h]
  have hle := deleteOne_deletedCount_le_one coll oid
  have hone : 0 < (Store.deleteOne coll oid).deletedCount ↔
      (Store.deleteOne coll oid).deletedCount = 1 := by omega
  refine ⟨?_, ?_, ?_⟩
  · rw [hres]
    simp only [Except.ok.injEq, decide_eq_true_eq]
    rw [← hone]
  · rw [← hone]
    exact deleteOne_deleted_iff coll oid
  · intro hnone
    have hnot : ¬0 < (Store.deleteOne coll oid).deletedCount := by
      rw [deleteOne_deleted_iff]
      exact hnone
    rw [hres, decide_eq_false hnot]

/-- Concrete check of C5: a valid id against an empty collection. -/
theorem c5_witness :
    ObjectId.parse_str "000000000000000000000005" = some oidA ∧
    (((db_delete_item none [] "000000000000000000000005").result =
          .ok true ↔ (Store.deleteOne [] oidA).deletedCount = 1) ∧
      ((Store.deleteOne [] oidA).deletedCount = 1 ↔
        ∃ d ∈ ([] : List Doc), d.get "_id" = some (Bson.objectId oidA)) ∧
      ((¬∃ d ∈ ([] : List Doc),
          d.get "_id" = some (Bson.objectId oidA)) →
        (db_delete_item none [] "000000000000000000000005").result =
          .ok false)) :=
  ⟨by decide,
    c5_delete_true_iff_removed none [] "000000000000000000000005" oidA
      (by decide)⟩

/-- C6: when the insert result carries a store-assigned object id,
`db_add_item` returns its hex string; when the insert result carries no
usable object id, the defensive branch fails with the
identifier-extraction error instead of returning an identifier. -/
theorem c6_create_returns_assigned_id (cfg : Option String) (coll : List Doc)
    (item : Item) (oid : ObjectId) (b : Bson)
    (hb : b.as_object_id = none) :
    (db_add_item cfg coll item (Bson.objectId oid)).result =
        .ok oid.to_hex ∧
      (db_add_item cfg coll item b).result = .error .insertNoId := by
  constructor
  · rfl
  · simp [db_add_item, hb]

/-- Concrete check of C6 with a string-valued insert result as the
defensive case. -/
theorem c6_witness :
    (Bson.string "oops").as_object_id = none ∧
    ((db_add_item none [] sampleItem (Bson.objectId oidA)).result =
        .ok oidA.to_hex ∧
      (db_add_item none [] sampleItem (Bson.string "oops")).result =
        .error .insertNoId) :=
  ⟨by decide,
    c6_create_returns_assigned_id none [] sampleItem oidA
      (Bson.string "oops") (by decide)⟩

/-- C7: for every document the list scan decodes successfully, only the
identifier is translated -- the decoded id is the hex form of the native
object id -- while name, description and price are exactly the values
stored in the document. -/
theorem c7_only_id_translated (d : Doc) (oid : ObjectId) (item : Item)
    (h1 : d.get_object_id "_id" = some oid)
    (h2 : decodeDoc d = some item) :
    item.id = some oid.to_hex ∧
      d.get "name" = some (Bson.string item.name) ∧
      d.get "description" = some (Bson.string item.description) ∧
      d.get "price" = some (Bson.double item.price) := by
  unfold decodeDoc at h2
  rw [h1] at h2
  obtain ⟨hid, hn, hds, hp⟩ := fromDocument_char h2
  rw [Doc.get_insert_self] at hid
  have hid2 : item.id = some oid.to_hex := by
    cases hcase : item.id with
    | none => rw [hcase] at hid; exact absurd hid (by simp)
    | some s =>
      rw [hcase] at hid
      simp only [Option.map_some'] at hid
      injection hid with hid
      injection hid with hid
      rw [hid]
  have hname : d.get "name" = some (Bson.string item.name) := by
    rw [← hn, Doc.get_insert_ne (by decide), Doc.get_remove_ne (by decide)]
  have hdesc : d.get "description" = some (Bson.string item.description) := by
    rw [← hds, Doc.get_insert_ne (by decide), Doc.get_remove_ne (by decide)]
  have hprice : d.get "price" = some (Bson.double item.price) := by
    rw [← hp, Doc.get_insert_ne (by decide), Doc.get_remove_ne (by decide)]
  exact ⟨hid2, hname, hdesc, hprice⟩

/-- Concrete check of C7 on a well-formed stored document. -/
theorem c7_witness :
    (sampleGoodDoc.get_object_id "_id" = some oidA ∧
      decodeDoc sampleGoodDoc =
        some ⟨some "000000000000000000000005", "n", "d", ⟨2⟩⟩) ∧
    ((⟨some "000000000000000000000005", "n", "d", ⟨2⟩⟩ : Item).id =
        some oidA.to_hex ∧
      sampleGoodDoc.get "name" = some (Bson.string "n") ∧
      sampleGoodDoc.get "description" = some (Bson.string "d") ∧
      sampleGoodDoc.get "price" = some (Bson.double ⟨2⟩)) :=
  ⟨⟨by decide, by decide⟩,
    c7_only_id_translated sampleGoodDoc oidA
      ⟨some "000000000000000000000005", "n", "d", ⟨2⟩⟩
      (by decide) (by decide)⟩

/-- C8: database resolution is a total function shared by all four
commands: with a database name in the connection configuration every
command operates on that database, and with none each falls back to the
hard-coded default `"heheheheh"`; no error path exists. -/
theorem c8_database_resolution_total (n : String) (coll : List Doc)
    (id : String) (item : Item) (b : Bson) :
    ((db_find_items (some n) coll).database = n ∧
        (db_find_items none coll).database = "heheheheh") ∧
      ((db_add_item (some n) coll item b).database = n ∧
        (db_add_item none coll item b).database = "heheheheh") ∧
      ((db_update_item (some n) coll id item).database = n ∧
        (db_update_item none coll id item).database = "heheheheh") ∧
      ((db_delete_item (some n) coll id).database = n ∧
        (db_delete_item none coll id).database = "heheheheh") ∧
      (resolve_database (some n) = n ∧
        resolve_database none = "heheheheh") := by
  refine ⟨⟨rfl, rfl⟩, ⟨rfl, rfl⟩, ⟨?_, ?_⟩, ⟨?_, ?_⟩, rfl, rfl⟩ <;>
    cases h : ObjectId.parse_str id <;>
      simp [db_update_item, db_delete_item, resolve_database, h]

/-- C9: creating a record and then listing the same collection yields a
record whose id is exactly the identifier string create returned and
whose name, description and price equal the input's. -/
theorem c9_create_then_list (cfg : Option String) (coll : List Doc)
    (item : Item) (oid : ObjectId) :
    (db_add_item cfg coll item (Bson.objectId oid)).result =
        .ok oid.to_hex ∧
      ∃ r ∈ (db_find_items cfg
          (db_add_item cfg coll item (Bson.objectId oid)).coll).items,
        r.id = some oid.to_hex ∧ r.name = item.name ∧
          r.description = item.description ∧ r.price = item.price := by
  refine ⟨rfl,
    ⟨⟨some oid.to_hex, item.name, item.description, item.price⟩,
      ?_, rfl, rfl, rfl, rfl⟩⟩
  show _ ∈ findItemsScan
    (coll ++ [("_id", Bson.objectId oid) :: encode_for_insert item])
  rw [findItemsScan_eq_filterMap, List.filterMap_append]
  apply List.mem_append_right
  simp [decode_insert_stored]

/-- C10: the identifier string produced by `to_hex` parses back to the
same object id, so every id handed out by list or create is accepted by
the validation in update and delete, whose store calls then filter by
that very object id. -/
theorem c10_identifier_round_trip (oid : ObjectId) (cfg : Option String)
    (coll : List Doc) (item : Item) :
    ObjectId.parse_str oid.to_hex = some oid ∧
      (db_update_item cfg coll oid.to_hex item).calls =
        [.updateOne oid (encode_for_update item)] ∧
      (db_delete_item cfg coll oid.to_hex).calls = [.deleteOne oid] := by
  refine ⟨parse_str_to_hex oid, ?_, ?_⟩ <;>
    simp [db_update_item, db_delete_item, parse_str_to_hex oid]
